import Mathlib

/-!
# Verification of the scout_apm core against its specification

The repository ships the unit/integration tests of the core
(`tests/unit/core/test_web_requests.py`, `tests/integration/test_django.py`)
and `src/scout_apm/metadata.py`.  The core modules themselves
(`scout_apm/core/web_requests.py`, `scout_apm/core/config.py`,
`scout_apm/core/n_plus_one_call_set.py`) are not part of the source tree,
so they are modelled here from the specification, faithful to its words;
`metadata.py` is embedded directly from the source.
-/

set_option maxHeartbeats 1000000

namespace ScoutAPM

/-- Python-like values that can appear as query-parameter values and in
nested request data: strings, integers, `None`, dicts (string keys),
lists, tuples and sets. -/
inductive PyValue where
  | str (s : String)
  | int (n : Int)
  | none
  | dict (entries : List (String × PyValue))
  | list (elems : List PyValue)
  | tuple (elems : List PyValue)
  | set (elems : List PyValue)

/-- Modelled from the spec: the configured sensitive-key denylist
(default: password/secret-style key names), matched case-insensitively.
The exact membership of the default denylist is a policy constant; it
contains at least "password". -/
def SENSITIVE_KEYS : List String :=
  ["password", "passwd", "secret", "api_key", "apikey", "access_token",
   "auth_token", "token"]

/-- Lower-case a string character by character (models Python's
`str.lower` for the ASCII key names the denylist match cares about). -/
def lowerString (s : String) : String :=
  String.mk (s.toList.map Char.toLower)

/-- A key is sensitive when its lower-cased form is in the denylist
(case-insensitive match). -/
def key_is_sensitive (key : String) : Bool :=
  SENSITIVE_KEYS.contains (lowerString key)

/-- The literal redaction marker. -/
def FILTERED : PyValue := .str "[FILTERED]"

mutual

/-- Modelled from the spec: `filter_element(key, value)`.  If `key`
case-insensitively matches the denylist, returns the literal redaction
marker regardless of `value`'s shape.  Otherwise recurses structurally:
mappings are rebuilt with each value filtered under its own key;
sequences and tuples are rebuilt filtering each element under the same
parent key; sets are returned unchanged; scalars pass through unchanged. -/
def filter_element (key : String) (value : PyValue) : PyValue :=
  if key_is_sensitive key then FILTERED
  else
    match value with
    | .dict entries => .dict (filter_dict entries)
    | .list elems => .list (filter_seq key elems)
    | .tuple elems => .tuple (filter_seq key elems)
    | other => other

/-- Rebuild a mapping, filtering each value under its own key. -/
def filter_dict : List (String × PyValue) → List (String × PyValue)
  | [] => []
  | (k, v) :: rest => (k, filter_element k v) :: filter_dict rest

/-- Rebuild a sequence, filtering each element under the parent key. -/
def filter_seq (key : String) : List PyValue → List PyValue
  | [] => []
  | v :: rest => filter_element key v :: filter_seq key rest

end

/-- Upper-case hexadecimal digit for a value below 16. -/
def hexDigitChar (n : Nat) : Char :=
  if n < 10 then Char.ofNat (48 + n) else Char.ofNat (55 + n)

/-- Percent-encode one byte as `%XX` with upper-case hex digits. -/
def percentEncodeByte (b : Nat) : String :=
  String.mk ['%', hexDigitChar (b / 16 % 16), hexDigitChar (b % 16)]

/-- The UTF-8 encoding of a character, as a list of byte values. -/
def utf8Bytes (c : Char) : List Nat :=
  let n := c.toNat
  if n < 128 then [n]
  else if n < 2048 then [192 + n / 64, 128 + n % 64]
  else if n < 65536 then [224 + n / 4096, 128 + n / 64 % 64, 128 + n % 64]
  else [240 + n / 262144, 128 + n / 4096 % 64, 128 + n / 64 % 64, 128 + n % 64]

/-- Characters that URL-encoding leaves untouched (unreserved set). -/
def isUrlSafeChar (c : Char) : Bool :=
  c.isAlphanum || c = '-' || c = '_' || c = '.' || c = '~'

/-- Percent-encode a string: unreserved characters are kept, every other
character is replaced by the percent-encoding of its UTF-8 bytes. -/
def urlquote (s : String) : String :=
  String.join (s.toList.map fun c =>
    if isUrlSafeChar c then String.mk [c]
    else String.join ((utf8Bytes c).map percentEncodeByte))

/-- Modelled from the spec: stringification of non-string query values
before encoding (integers render in decimal, `None` renders as "None").
The spec fixes the rendering of scalars only; container values never
occur as query-parameter values, so they get an unspecified placeholder. -/
def pyStr : PyValue → String
  | .str s => s
  | .int n => toString n
  | .none => "None"
  | _ => "<container>"

/-- Serialize one filtered query pair as `key=value`, percent-encoded. -/
def encodePair (kv : String × PyValue) : String :=
  urlquote kv.1 ++ "=" ++ urlquote (pyStr kv.2)

/-- Lexicographic comparison of character lists by code point (the
ordering Python uses to compare strings). -/
def charsLe : List Char → List Char → Bool
  | [], _ => true
  | _ :: _, [] => false
  | a :: as, b :: bs =>
    if a.toNat < b.toNat then true
    else if b.toNat < a.toNat then false
    else charsLe as bs

/-- String comparison by code points, as Python's `<=` on strings. -/
def strLe (a b : String) : Bool :=
  charsLe a.toList b.toList

/-- The sort relation used on query pairs: compare by key. -/
def pairKeyLe (a b : String × PyValue) : Prop :=
  strLe a.1 b.1 = true

instance : DecidableRel pairKeyLe := fun a b => by
  unfold pairKeyLe; infer_instance

/-- Modelled from the spec: `create_filtered_path(path, params)`.  When
config `uri_reporting` is "path", returns the path unmodified.  Otherwise
filters each value through `filter_element` under its key, sorts the
pairs by key (stable, duplicates retained), and appends them
percent-encoded as a query string; an empty parameter list yields the
bare path (this is the behaviour the repository's unit tests require). -/
def create_filtered_path (uri_reporting : String) (path : String)
    (params : List (String × PyValue)) : String :=
  if uri_reporting = "path" then path
  else if params.isEmpty then path
  else
    let filtered := params.map fun kv => (kv.1, filter_element kv.1 kv.2)
    let sortedParams := List.insertionSort pairKeyLe filtered
    path ++ "?" ++ String.intercalate "&" (sortedParams.map encodePair)

/-- A model of the Python float values the timestamp normalizer handles:
NaN, the two infinities, and finite values as exact rationals (IEEE
rounding is not modelled). -/
inductive PFloat where
  | nan
  | inf
  | ninf
  | fin (q : ℚ)
  deriving DecidableEq, Repr

/-- IEEE-style `≥` on model floats: any comparison with NaN is false. -/
def PFloat.ge : PFloat → PFloat → Bool
  | .nan, _ => false
  | _, .nan => false
  | .inf, _ => true
  | .ninf, .ninf => true
  | .ninf, _ => false
  | .fin _, .inf => false
  | .fin _, .ninf => true
  | .fin a, .fin b => decide (b ≤ a)

/-- Multiply a model float by a positive rational scaling constant:
infinities keep their sign, NaN propagates. -/
def PFloat.scale (c : ℚ) : PFloat → PFloat
  | .nan => .nan
  | .inf => .inf
  | .ninf => .ninf
  | .fin q => .fin (q * c)

/-- Modelled from the spec: the fixed cutoff epoch in seconds, a date
early enough that every legitimate epoch-seconds measurement exceeds it
(the repository's tests place it in 2009; this is 2009-06-01 UTC). -/
def CUTOFF_EPOCH_S : ℚ := 1243814400

/-- The cutoff scaled to milliseconds. -/
def CUTOFF_EPOCH_MS : ℚ := CUTOFF_EPOCH_S * 1000

/-- The cutoff scaled to microseconds. -/
def CUTOFF_EPOCH_US : ℚ := CUTOFF_EPOCH_S * 1000000

/-- Modelled from the spec: `convert_ambiguous_timestamp_to_ns`.  The
unit of the input (seconds, milliseconds or microseconds since epoch) is
inferred by magnitude against the cutoff at each scale, and the value is
scaled to nanoseconds; anything still below the cutoff after exhausting
the scaling attempts (including `0.0`, NaN and `-infinity`) degrades to
`0.0`, while `+infinity` propagates.  The function is total: it never
raises. -/
def convert_ambiguous_timestamp_to_ns (t : PFloat) : PFloat :=
  if t.ge (.fin CUTOFF_EPOCH_US) then t.scale 1000
  else if t.ge (.fin CUTOFF_EPOCH_MS) then t.scale 1000000
  else if t.ge (.fin CUTOFF_EPOCH_S) then t.scale 1000000000
  else .fin 0

/-- Parse a non-empty all-digit character list into a natural number. -/
def parseDigits (s : List Char) : Option Nat :=
  if s.isEmpty then Option.none
  else if s.all Char.isDigit then
    Option.some (s.foldl (fun acc c => acc * 10 + (c.toNat - 48)) 0)
  else Option.none

/-- Split a character list at the dots, keeping empty groups. -/
def splitDot : List Char → List (List Char)
  | [] => [[]]
  | c :: rest =>
    if c = '.' then [] :: splitDot rest
    else
      match splitDot rest with
      | g :: gs => (c :: g) :: gs
      | [] => [[c]]

/-- Modelled from the spec: Python `float()` on the strings the header
check lets through — `<digits>` or `<digits>.<digits>` (with an optional
empty fraction); anything else raises ValueError, modelled as a parse
failure. -/
def parseFloatChars (s : List Char) : Option ℚ :=
  match splitDot s with
  | [intPart] =>
    match parseDigits intPart with
    | Option.some n => Option.some (n : ℚ)
    | Option.none => Option.none
  | [intPart, fracPart] =>
    match parseDigits intPart with
    | Option.some n =>
      if fracPart.isEmpty then Option.some (n : ℚ)
      else
        match parseDigits fracPart with
        | Option.some f =>
          Option.some ((n : ℚ) + (f : ℚ) / 10 ^ fracPart.length)
        | Option.none => Option.none
    | Option.none => Option.none
  | _ => Option.none

/-- Modelled from the spec: parse a queue-time header of the form
`t=<timestamp>` or a bare numeric timestamp.  Empty input, or a first
character that is not a digit (which rejects negatives and non-numeric
text), fails the parse. -/
def parseQueueHeader (s : String) : Option ℚ :=
  let cs := s.toList
  let body :=
    match cs with
    | 't' :: '=' :: rest => rest
    | _ => cs
  match body with
  | [] => Option.none
  | c :: _ => if c.isDigit then parseFloatChars body else Option.none

/-- The slice of `TrackedRequest` state the queue-time tracker touches:
its tags, a key-value mapping where the last write wins. -/
structure TrackedRequest where
  tags : List (String × Int)
  deriving DecidableEq, Repr

/-- Attach or overwrite a tag on the request (last write wins). -/
def TrackedRequest.tag (tr : TrackedRequest) (k : String) (v : Int) :
    TrackedRequest :=
  ⟨(k, v) :: tr.tags.filter (fun kv => kv.1 != k)⟩

/-- Look up a tag on the request. -/
def TrackedRequest.getTag (tr : TrackedRequest) (k : String) : Option Int :=
  tr.tags.lookup k

/-- Modelled from the spec: `track_request_queue_time(header_value,
request)`.  Parse failure, a normalization fallback to zero, or a
timestamp in the future beyond the tolerance reject the header — the
function returns false and the request is unchanged.  On acceptance the
non-negative integer nanosecond queue time (request start minus queue
start) is attached as tag "scout.queue_time_ns" and the function returns
true.  The future tolerance is a policy constant the spec leaves
configurable, so it is a parameter here; `now_ns` is the request start
time in nanoseconds.  The function is total: it never raises. -/
def track_request_queue_time (tolerance_ns : ℚ) (header_value : String)
    (now_ns : ℚ) (tr : TrackedRequest) : Bool × TrackedRequest :=
  match parseQueueHeader header_value with
  | Option.none => (false, tr)
  | Option.some ts =>
    match convert_ambiguous_timestamp_to_ns (.fin ts) with
    | .fin start_ns =>
      if start_ns = 0 then (false, tr)
      else if now_ns + tolerance_ns < start_ns then (false, tr)
      else
        let queue_time_ns : Int := max 0 ⌊now_ns - start_ns⌋
        (true, tr.tag "scout.queue_time_ns" queue_time_ns)
    | _ => (false, tr)

/-- Modelled from the spec: per-key state of the N+1 call set — the
observation count of one normalized SQL shape within one request, and
the one-shot backtrace-captured flag. -/
structure NPlusOneCallSetItem where
  call_count : Nat
  backtrace_captured : Bool
  deriving DecidableEq, Repr

/-- A fresh per-key accumulator: no calls seen, nothing captured. -/
def NPlusOneCallSetItem.init : NPlusOneCallSetItem := ⟨0, false⟩

/-- Modelled from the spec: one SQL-span completion for this key —
increment the count, and invoke the expensive backtrace capture exactly
when the count reaches the threshold and no capture has happened yet for
this key.  Returns the new state and whether capture fired. -/
def observeCall (threshold : Nat) (item : NPlusOneCallSetItem) :
    NPlusOneCallSetItem × Bool :=
  let c := item.call_count + 1
  let fire := threshold ≤ c && !item.backtrace_captured
  (⟨c, item.backtrace_captured || fire⟩, fire)

/-- The per-key state and the list of capture decisions after `n`
observations of one key within one request, from the fresh state. -/
def observeTrace (threshold : Nat) : Nat → NPlusOneCallSetItem × List Bool
  | 0 => (NPlusOneCallSetItem.init, [])
  | n + 1 =>
    let s := observeTrace threshold n
    let step := observeCall threshold s.1
    (step.1, s.2 ++ [step.2])

/-- Modelled from the spec: the process-wide settings store — an
explicit override layer over a fixed environment → file → default
resolution chain. -/
structure ScoutConfig where
  overrides : List (String × String)
  envValues : String → Option String
  fileValues : String → Option String
  defaults : String → String

/-- Resolution skipping the override layer: environment variable, then
config file, then compiled-in default (always defined). -/
def ScoutConfig.baseValue (c : ScoutConfig) (name : String) : String :=
  match c.envValues name with
  | Option.some v => v
  | Option.none =>
    match c.fileValues name with
    | Option.some v => v
    | Option.none => c.defaults name

/-- `value(name)`: explicit override → environment → file → default. -/
def ScoutConfig.value (c : ScoutConfig) (name : String) : String :=
  match c.overrides.lookup name with
  | Option.some v => v
  | Option.none => c.baseValue name

/-- `set(name=v)`: push a value into the override layer. -/
def ScoutConfig.set (c : ScoutConfig) (name v : String) : ScoutConfig :=
  { c with overrides := (name, v) :: c.overrides }

/-- `reset_all()`: clear the override layer entirely, restoring
environment/file/default resolution. -/
def ScoutConfig.reset_all (c : ScoutConfig) : ScoutConfig :=
  { c with overrides := [] }

/-- Result of running `AppMetadata.report`: whether the thread-local
agent context was released, and the exception (if any) that propagated
to report's caller. -/
structure ReportResult where
  contextReleased : Bool
  raisedToCaller : Option String
  deriving DecidableEq, Repr

/-- Embedded from `src/scout_apm/metadata.py`, `AppMetadata.report`: the
body acquires the agent socket, builds the ApplicationEvent and sends it,
all inside a `try` statement whose only clause is `finally`, which
releases the agent context.  Python's `finally` runs the cleanup and
re-raises, so the cleanup always happens but any exception raised while
acquiring the socket or sending escapes to the caller.  The fallible
steps are the two parameters. -/
def AppMetadata.report (acquireSocket : Except String Unit)
    (send : Except String Unit) : ReportResult :=
  let body : Except String Unit :=
    match acquireSocket with
    | .error e => .error e
    | .ok _ => send
  { contextReleased := true
    raisedToCaller :=
      match body with
      | .ok _ => Option.none
      | .error e => Option.some e }

/-- A metadata dictionary value: a string, or the packages list. -/
inductive MetaValue where
  | str (s : String)
  | packages (ps : List (String × String))
  deriving DecidableEq, Repr

/-- Embedded from `src/scout_apm/metadata.py`, `AppMetadata.data`:
`data` starts as the empty dict; the full mapping is then built inside a
`try` whose `except Exception` logs and falls through to `return data`,
so if building the mapping raises (the fallible step is the pip-backed
`package_list()` call, the third parameter) the empty dict is returned.
On success the mapping always carries `language: python`. -/
def AppMetadata.data (versionInfo : Nat × Nat × Nat) (serverTime : String)
    (packageListOutcome : Except String (List (String × String))) :
    List (String × MetaValue) :=
  match packageListOutcome with
  | .error _ => []
  | .ok pkgs =>
    [("language", .str "python"),
     ("version", .str (toString versionInfo.1 ++ "." ++ toString versionInfo.2.1
        ++ "." ++ toString versionInfo.2.2)),
     ("server_time", .str (serverTime ++ "Z")),
     ("framework", .str ""),
     ("framework_version", .str ""),
     ("environment", .str ""),
     ("app_server", .str ""),
     ("hostname", .str ""),
     ("database_engine", .str ""),
     ("database_adapter", .str ""),
     ("application_name", .str ""),
     ("libraries", .packages pkgs),
     ("paas", .str ""),
     ("git_sha", .str "")]

/-! ## Helper lemmas -/

/-- `filter_dict` rebuilds the entry list, filtering each value under
its own key. -/
theorem filter_dict_eq_map (entries : List (String × PyValue)) :
    filter_dict entries = entries.map fun kv => (kv.1, filter_element kv.1 kv.2) := by
  induction entries with
  | nil => simp [filter_dict]
  | cons kv rest ih => cases kv; simp [filter_dict, ih]

/-- `filter_seq` rebuilds the element list, filtering each element under
the parent key. -/
theorem filter_seq_eq_map (key : String) (elems : List PyValue) :
    filter_seq key elems = elems.map (filter_element key) := by
  induction elems with
  | nil => simp [filter_seq]
  | cons v rest ih => simp [filter_seq, ih]

/-- The code-point comparison on character lists is total. -/
theorem charsLe_total : ∀ xs ys : List Char,
    charsLe xs ys = true ∨ charsLe ys xs = true
  | [], _ => Or.inl (by simp [charsLe])
  | _ :: _, [] => Or.inr (by simp [charsLe])
  | x :: xs, y :: ys => by
    by_cases h1 : x.toNat < y.toNat
    · exact Or.inl (by simp [charsLe, h1])
    · by_cases h2 : y.toNat < x.toNat
      · exact Or.inr (by simp [charsLe, h2])
      · rcases charsLe_total xs ys with h | h
        · exact Or.inl (by simp [charsLe, h1, h2, h])
        · exact Or.inr (by simp [charsLe, h1, h2, h])

/-- The code-point comparison on character lists is transitive. -/
theorem charsLe_trans : ∀ xs ys zs : List Char,
    charsLe xs ys = true → charsLe ys zs = true → charsLe xs zs = true
  | [], _, _ => fun _ _ => by simp [charsLe]
  | x :: xs, [], _ => fun h _ => by simp [charsLe] at h
  | _ :: _, _ :: _, [] => fun _ h => by simp [charsLe] at h
  | x :: xs, y :: ys, z :: zs => by
    intro h1 h2
    rw [charsLe] at h1 h2 ⊢
    by_cases hxy : x.toNat < y.toNat
    · rw [if_pos hxy] at h1
      by_cases hyz : y.toNat < z.toNat
      · rw [if_pos (by omega : x.toNat < z.toNat)]
      · rw [if_neg hyz] at h2
        by_cases hzy : z.toNat < y.toNat
        · rw [if_pos hzy] at h2; exact absurd h2 (by simp)
        · rw [if_pos (by omega : x.toNat < z.toNat)]
    · rw [if_neg hxy] at h1
      by_cases hyx : y.toNat < x.toNat
      · rw [if_pos hyx] at h1; exact absurd h1 (by simp)
      · rw [if_neg hyx] at h1
        by_cases hyz : y.toNat < z.toNat
        · rw [if_pos (by omega : x.toNat < z.toNat)]
        · rw [if_neg hyz] at h2
          by_cases hzy : z.toNat < y.toNat
          · rw [if_pos hzy] at h2; exact absurd h2 (by simp)
          · rw [if_neg hzy] at h2
            rw [if_neg (by omega : ¬ x.toNat < z.toNat),
              if_neg (by omega : ¬ z.toNat < x.toNat)]
            exact charsLe_trans xs ys zs h1 h2

/-! ## Claim theorems -/

/-- C1: for every key that case-insensitively matches the configured
sensitive-key denylist and every value, `filter_element(key, value)`
returns the literal redaction marker "[FILTERED]", regardless of the
value's type, shape, or nesting depth. -/
theorem filter_element_sensitive_key_redacts (key : String) (value : PyValue)
    (h : key_is_sensitive key = true) :
    filter_element key value = .str "[FILTERED]" := by
  cases value <;> simp [filter_element, FILTERED, h]

/-- C1 witness: the upper-case key "PASSWORD" matches the denylist and
redacts a nested container value. -/
theorem filter_element_sensitive_key_redacts_witness :
    key_is_sensitive "PASSWORD" = true ∧
      filter_element "PASSWORD" (.dict [("a", .list [.int 1, .str "x"])])
        = .str "[FILTERED]" :=
  ⟨by decide, filter_element_sensitive_key_redacts "PASSWORD" _ (by decide)⟩

/-- C6: for every non-sensitive key, `filter_element` recurses
structurally and preserves container type: a mapping is rebuilt with
each value filtered under its own key; a sequence or tuple is rebuilt
filtering each element under the same parent key (a tuple stays a
tuple); a set is returned unchanged with no filtering of its elements;
and a scalar (string, integer or None) is returned unchanged.  The
embedding is a pure function, so the input structure is never mutated. -/
theorem filter_element_nonsensitive_structural (key : String)
    (h : key_is_sensitive key = false) :
    (∀ entries, filter_element key (.dict entries)
        = .dict (entries.map fun kv => (kv.1, filter_element kv.1 kv.2))) ∧
    (∀ elems, filter_element key (.list elems)
        = .list (elems.map (filter_element key))) ∧
    (∀ elems, filter_element key (.tuple elems)
        = .tuple (elems.map (filter_element key))) ∧
    (∀ elems, filter_element key (.set elems) = .set elems) ∧
    (∀ s, filter_element key (.str s) = .str s) ∧
    (∀ n, filter_element key (.int n) = .int n) ∧
    filter_element key .none = .none := by
  refine ⟨fun entries => ?_, fun elems => ?_, fun elems => ?_, fun elems => ?_,
    fun s => ?_, fun n => ?_, ?_⟩ <;>
    simp [filter_element, h, filter_dict_eq_map, filter_seq_eq_map]

/-- C6 witness: the non-sensitive key "bar" leaves a set untouched,
keeps a tuple a tuple, and filters a nested mapping by its own keys. -/
theorem filter_element_nonsensitive_structural_witness :
    key_is_sensitive "bar" = false ∧
    filter_element "bar" (.set [.str "baz"]) = .set [.str "baz"] ∧
    filter_element "bar" (.tuple [.dict [("password", .str "hunter2")], .str "baz"])
      = .tuple ([.dict [("password", .str "hunter2")], .str "baz"].map
          (filter_element "bar")) := by
  refine ⟨by decide, ?_, ?_⟩
  · exact (filter_element_nonsensitive_structural "bar" (by decide)).2.2.2.1 _
  · exact (filter_element_nonsensitive_structural "bar" (by decide)).2.2.1 _

/-- C8: config override/reset round-trip — after `set(x=v)`, `value(x)`
returns `v`; after a subsequent `reset_all()`, `value(x)` returns the
value the environment/file/default resolution chain gave before the
override, so overrides leave no permanent trace. -/
theorem config_override_reset_roundtrip (c : ScoutConfig) (x v : String) :
    (c.set x v).value x = v ∧
    ((c.set x v).reset_all).value x = (c.reset_all).value x ∧
    ((c.set x v).reset_all).value x = c.baseValue x := by
  refine ⟨?_, ?_, ?_⟩ <;>
    simp [ScoutConfig.set, ScoutConfig.value, ScoutConfig.reset_all,
      ScoutConfig.baseValue, List.lookup]

/-- C9 counterexample: in `AppMetadata.report` the `try` statement has
only a `finally` clause, so a raised error from the socket send is
re-raised after the cleanup and escapes to the caller — the claim that
no transport exception ever escapes is false at this input. -/
theorem report_send_error_escapes_counterexample :
    (AppMetadata.report (.ok ()) (.error "ECONNREFUSED")).raisedToCaller
        = Option.some "ECONNREFUSED" ∧
      Option.some "ECONNREFUSED" ≠ (Option.none : Option String) := by
  exact ⟨rfl, by decide⟩

/-- C9 amended: for every outcome of acquiring the socket and of the
socket send inside `AppMetadata.report`, the `finally` clause releases
the agent context, and no exception escapes to the caller exactly when
both steps succeed — a send failure propagates out of `report` (it is
not swallowed). -/
theorem report_finally_semantics (acquire send : Except String Unit) :
    (AppMetadata.report acquire send).contextReleased = true ∧
    ((AppMetadata.report acquire send).raisedToCaller = Option.none ↔
      acquire = .ok () ∧ send = .ok ()) := by
  cases acquire with
  | ok u =>
    cases u
    cases send with
    | ok u2 => cases u2; exact ⟨rfl, by simp [AppMetadata.report]⟩
    | error e => exact ⟨rfl, by simp [AppMetadata.report]⟩
  | error e => exact ⟨rfl, by simp [AppMetadata.report]⟩

/-- C10: `AppMetadata.data` never raises (it is total) and always
returns a dictionary: if building the metadata mapping fails with any
exception the empty dictionary is returned; otherwise the returned
dictionary contains the key "language" with value "python". -/
theorem data_defensive (vi : Nat × Nat × Nat) (st : String)
    (pl : Except String (List (String × String))) :
    (∀ e, pl = .error e → AppMetadata.data vi st pl = []) ∧
    (∀ pkgs, pl = .ok pkgs →
      (AppMetadata.data vi st pl).lookup "language"
        = Option.some (.str "python")) := by
  constructor
  · rintro e rfl; rfl
  · rintro pkgs rfl; rfl

/-- C10 witness: a failed pip enumeration yields the empty dict; a
successful build carries `language: python`. -/
theorem data_defensive_witness :
    AppMetadata.data (3, 8, 2) "2020-01-01T00:00:00" (.error "pip failed") = [] ∧
    (AppMetadata.data (3, 8, 2) "2020-01-01T00:00:00"
        (.ok [("pip", "19.0")])).lookup "language" = Option.some (.str "python") :=
  ⟨(data_defensive (3, 8, 2) "2020-01-01T00:00:00" (.error "pip failed")).1
      "pip failed" rfl,
    (data_defensive (3, 8, 2) "2020-01-01T00:00:00" (.ok [("pip", "19.0")])).2
      [("pip", "19.0")] rfl⟩

/-- C2 counterexample: the claim demands, for every seconds-epoch value
v at or above the cutoff, that v maps to v·10⁹ — and simultaneously that
the millisecond variant w·1000 of every such w maps to w·10⁹.  At
v = 1000·cutoff (the millisecond image of the cutoff itself) those two
demands conflict, so the universal claim is false on any single-argument
function; the function judges by magnitude and takes the millisecond
reading, returning v·10⁶ rather than the v·10⁹ the seconds reading
demands. -/
theorem convert_ambiguous_counterexample :
    CUTOFF_EPOCH_S ≤ CUTOFF_EPOCH_MS ∧
    convert_ambiguous_timestamp_to_ns (.fin CUTOFF_EPOCH_MS)
      = .fin (CUTOFF_EPOCH_MS * 1000000) ∧
    CUTOFF_EPOCH_MS * 1000000 ≠ CUTOFF_EPOCH_MS * 1000000000 := by
  refine ⟨by norm_num [CUTOFF_EPOCH_MS, CUTOFF_EPOCH_S], ?_, ?_⟩
  · norm_num [convert_ambiguous_timestamp_to_ns, PFloat.ge, PFloat.scale,
      CUTOFF_EPOCH_US, CUTOFF_EPOCH_MS, CUTOFF_EPOCH_S]
  · norm_num [CUTOFF_EPOCH_MS, CUTOFF_EPOCH_S]

/-- C2 amended: for every seconds-epoch value v in the seconds magnitude
band (at or above the cutoff and below 1000x the cutoff — the only
values a magnitude-judging normalizer can read as seconds), v and its
millisecond (v·1000) and microsecond (v·10⁶) variants all map to the
same nanosecond value v·10⁹; any value below the cutoff after the
scaling attempts maps to 0.0; 0.0 maps to 0.0; NaN and -infinity map to
0.0; +infinity propagates.  The model is a total function, so it never
raises on any input. -/
theorem convert_ambiguous_timestamp_spec :
    (∀ v : ℚ, CUTOFF_EPOCH_S ≤ v → v < CUTOFF_EPOCH_MS →
      convert_ambiguous_timestamp_to_ns (.fin v) = .fin (v * 1000000000) ∧
      convert_ambiguous_timestamp_to_ns (.fin (v * 1000)) = .fin (v * 1000000000) ∧
      convert_ambiguous_timestamp_to_ns (.fin (v * 1000000)) = .fin (v * 1000000000)) ∧
    (∀ v : ℚ, v < CUTOFF_EPOCH_S → convert_ambiguous_timestamp_to_ns (.fin v) = .fin 0) ∧
    convert_ambiguous_timestamp_to_ns (.fin 0) = .fin 0 ∧
    convert_ambiguous_timestamp_to_ns .nan = .fin 0 ∧
    convert_ambiguous_timestamp_to_ns .ninf = .fin 0 ∧
    convert_ambiguous_timestamp_to_ns .inf = .inf := by
  have unfold_fin : ∀ q : ℚ, convert_ambiguous_timestamp_to_ns (.fin q)
      = if CUTOFF_EPOCH_US ≤ q then .fin (q * 1000)
        else if CUTOFF_EPOCH_MS ≤ q then .fin (q * 1000000)
        else if CUTOFF_EPOCH_S ≤ q then .fin (q * 1000000000)
        else .fin 0 := by
    intro q
    simp [convert_ambiguous_timestamp_to_ns, PFloat.ge, PFloat.scale]
  have hcS : CUTOFF_EPOCH_S = 1243814400 := rfl
  have hcMS : CUTOFF_EPOCH_MS = 1243814400000 := by
    norm_num [CUTOFF_EPOCH_MS, CUTOFF_EPOCH_S]
  have hcUS : CUTOFF_EPOCH_US = 1243814400000000 := by
    norm_num [CUTOFF_EPOCH_US, CUTOFF_EPOCH_S]
  refine ⟨fun v h1 h2 => ⟨?_, ?_, ?_⟩, fun v h1 => ?_, ?_, ?_, ?_, ?_⟩
  · rw [unfold_fin,
      if_neg (by rw [hcUS]; rw [hcMS] at h2; intro h; linarith),
      if_neg (not_le.mpr h2), if_pos h1]
  · rw [unfold_fin,
      if_neg (by rw [hcUS]; rw [hcMS] at h2; intro h; linarith),
      if_pos (by rw [hcMS]; rw [hcS] at h1; linarith)]
    congr 1; ring
  · rw [unfold_fin,
      if_pos (by rw [hcUS]; rw [hcS] at h1; linarith)]
    congr 1; ring
  · rw [unfold_fin,
      if_neg (by rw [hcUS]; rw [hcS] at h1; intro h; linarith),
      if_neg (by rw [hcMS]; rw [hcS] at h1; intro h; linarith),
      if_neg (not_le.mpr h1)]
  · rw [unfold_fin,
      if_neg (by rw [hcUS]; norm_num),
      if_neg (by rw [hcMS]; norm_num),
      if_neg (by rw [hcS]; norm_num)]
  · simp [convert_ambiguous_timestamp_to_ns, PFloat.ge]
  · simp [convert_ambiguous_timestamp_to_ns, PFloat.ge]
  · simp [convert_ambiguous_timestamp_to_ns, PFloat.ge, PFloat.scale]

/-- C2 witness: the seconds value 1300000000 sits in the seconds band;
it and its scaled variants normalize to 1.3e18 ns, and 1000.0 (below
the cutoff at every scale) degrades to 0.0. -/
theorem convert_ambiguous_timestamp_spec_witness :
    convert_ambiguous_timestamp_to_ns (.fin 1300000000)
      = .fin (1300000000 * 1000000000) ∧
    convert_ambiguous_timestamp_to_ns (.fin (1300000000 * 1000))
      = .fin (1300000000 * 1000000000) ∧
    convert_ambiguous_timestamp_to_ns (.fin 1000) = .fin 0 :=
  have h := (convert_ambiguous_timestamp_spec.1 1300000000
    (by norm_num [CUTOFF_EPOCH_S]) (by norm_num [CUTOFF_EPOCH_MS, CUTOFF_EPOCH_S]))
  ⟨h.1, h.2.1, convert_ambiguous_timestamp_spec.2.1 1000
    (by norm_num [CUTOFF_EPOCH_S])⟩

/-- C5: `track_request_queue_time` — a header that fails to parse
(empty, non-numeric, malformed float), or whose timestamp normalizes to
zero (below the cutoff), or whose timestamp lies in the future beyond
the tolerance, is rejected: the function returns false and the request
is unchanged (no tag set).  A well-formed past timestamp (here: at
least one nanosecond before the request start) is accepted: the function
returns true and sets the tag "scout.queue_time_ns" on the request to a
positive integer.  The model is a total function, so no input raises. -/
theorem track_request_queue_time_spec (tol now : ℚ) (tr : TrackedRequest) :
    (∀ hv, parseQueueHeader hv = Option.none →
      track_request_queue_time tol hv now tr = (false, tr)) ∧
    (∀ hv ts, parseQueueHeader hv = Option.some ts →
      convert_ambiguous_timestamp_to_ns (.fin ts) = .fin 0 →
      track_request_queue_time tol hv now tr = (false, tr)) ∧
    (∀ hv ts s, parseQueueHeader hv = Option.some ts →
      convert_ambiguous_timestamp_to_ns (.fin ts) = .fin s →
      now + tol < s →
      track_request_queue_time tol hv now tr = (false, tr)) ∧
    (∀ hv ts s, parseQueueHeader hv = Option.some ts →
      convert_ambiguous_timestamp_to_ns (.fin ts) = .fin s →
      s ≠ 0 → s ≤ now + tol → s + 1 ≤ now →
      0 < ⌊now - s⌋ ∧
      track_request_queue_time tol hv now tr
        = (true, tr.tag "scout.queue_time_ns" ⌊now - s⌋) ∧
      (tr.tag "scout.queue_time_ns" ⌊now - s⌋).getTag "scout.queue_time_ns"
        = Option.some ⌊now - s⌋) := by
  refine ⟨fun hv hp => ?_, fun hv ts hp hc => ?_, fun hv ts s hp hc hf => ?_,
    fun hv ts s hp hc hnz hle hpast => ?_⟩
  · simp [track_request_queue_time, hp]
  · simp [track_request_queue_time, hp, hc]
  · by_cases hz : s = 0
    · simp [track_request_queue_time, hp, hc, hz]
    · simp [track_request_queue_time, hp, hc, hz, hf]
  · have h1 : (1 : ℤ) ≤ ⌊now - s⌋ := Int.le_floor.mpr (by push_cast; linarith)
    have hfloor : (0 : ℤ) < ⌊now - s⌋ := by omega
    have hmax : max 0 ⌊now - s⌋ = ⌊now - s⌋ := max_eq_right (le_of_lt hfloor)
    refine ⟨hfloor, ?_, ?_⟩
    · simp [track_request_queue_time, hp, hc, hnz, not_lt.mpr hle, hmax]
    · simp [TrackedRequest.tag, TrackedRequest.getTag, List.lookup]

/-- C5 witness: the empty header, a below-cutoff timestamp, and a
future timestamp are all rejected leaving the request untagged, while a
well-formed past timestamp (2 ns before request start, shown here with
the "t=" prefix) is accepted with a positive queue-time tag. -/
theorem track_request_queue_time_spec_witness :
    track_request_queue_time 0 "" 0 ⟨[]⟩ = (false, ⟨[]⟩) ∧
    track_request_queue_time 0 "1000" 0 ⟨[]⟩ = (false, ⟨[]⟩) ∧
    track_request_queue_time 0 "t=1300000000" 0 ⟨[]⟩ = (false, ⟨[]⟩) ∧
    (0 : ℤ) < ⌊(1300000000000000005 : ℚ) - 1300000000000000000⌋ ∧
    track_request_queue_time 0 "t=1300000000" 1300000000000000005 ⟨[]⟩
      = (true, TrackedRequest.tag ⟨[]⟩ "scout.queue_time_ns"
          ⌊(1300000000000000005 : ℚ) - 1300000000000000000⌋) := by
  have hconv : convert_ambiguous_timestamp_to_ns (.fin 1300000000)
      = .fin 1300000000000000000 := by
    norm_num [convert_ambiguous_timestamp_to_ns, PFloat.ge, PFloat.scale,
      CUTOFF_EPOCH_US, CUTOFF_EPOCH_MS, CUTOFF_EPOCH_S]
  have hparse : parseQueueHeader "t=1300000000" = Option.some (1300000000 : ℚ) := by
    decide
  have hconv0 : convert_ambiguous_timestamp_to_ns (.fin 1000) = .fin 0 := by
    norm_num [convert_ambiguous_timestamp_to_ns, PFloat.ge, PFloat.scale,
      CUTOFF_EPOCH_US, CUTOFF_EPOCH_MS, CUTOFF_EPOCH_S]
  have h4 := (track_request_queue_time_spec 0 1300000000000000005 ⟨[]⟩).2.2.2
    "t=1300000000" 1300000000 1300000000000000000 hparse hconv
    (by norm_num) (by norm_num) (by norm_num)
  exact ⟨(track_request_queue_time_spec 0 0 ⟨[]⟩).1 "" (by decide),
    (track_request_queue_time_spec 0 0 ⟨[]⟩).2.1 "1000" 1000 (by decide) hconv0,
    (track_request_queue_time_spec 0 0 ⟨[]⟩).2.2.1 "t=1300000000"
      1300000000 1300000000000000000 hparse hconv (by norm_num),
    h4.1, h4.2.1⟩

/-- C3 counterexample: at the empty parameter list the function returns
the bare path with no "?" appended (the repository's unit test case
`("/", [], "/")` requires exactly this), not the path followed by "?"
and the empty serialization that the claim's universal statement
describes. -/
theorem create_filtered_path_empty_counterexample :
    create_filtered_path "full" "/" [] = "/" ∧ ("/" : String) ≠ "/?" :=
  ⟨rfl, by decide⟩

/-- C3 amended: when config uri_reporting is "path" the path is
returned unmodified for every parameter list; in any other (default)
reporting mode the empty parameter list yields the path unmodified, and
every nonempty parameter list yields the path followed by "?" and the
filtered pairs serialized sorted by key with keys and stringified values
percent-encoded as UTF-8 — checked on the spec's examples: unsorted
input is reordered by key, duplicate keys are all retained, the integer
1 stringifies to "1", None stringifies to "None", a sensitive value
serializes as the percent-encoded redaction marker, and non-ASCII text
is percent-encoded as UTF-8. -/
theorem create_filtered_path_spec :
    (∀ path params, create_filtered_path "path" path params = path) ∧
    (∀ mode path, mode ≠ "path" → create_filtered_path mode path [] = path) ∧
    (∀ mode path params, mode ≠ "path" → params ≠ [] →
      create_filtered_path mode path params
        = path ++ "?" ++ String.intercalate "&"
            ((List.insertionSort pairKeyLe
              (params.map fun kv => (kv.1, filter_element kv.1 kv.2))).map
                encodePair)) ∧
    create_filtered_path "full" "/" [("baz", .str "2"), ("bar", .str "1")]
      = "/?bar=1&baz=2" ∧
    create_filtered_path "full" "/" [("bar", .str "1"), ("bar", .str "2")]
      = "/?bar=1&bar=2" ∧
    create_filtered_path "full" "/" [("bar", .int 1)] = "/?bar=1" ∧
    create_filtered_path "full" "/" [("bar", .none)] = "/?bar=None" ∧
    create_filtered_path "full" "/" [("password", .str "hunter2")]
      = "/?password=%5BFILTERED%5D" ∧
    create_filtered_path "full" "/" [("bar", .str "unicØde")]
      = "/?bar=unic%C3%98de" := by
  have hbar : key_is_sensitive "bar" = false := by decide
  have hbaz : key_is_sensitive "baz" = false := by decide
  have hpw : key_is_sensitive "password" = true := by decide
  refine ⟨fun path params => ?_, fun mode path h => ?_,
    fun mode path params h hne => ?_, ?_, ?_, ?_, ?_, ?_, ?_⟩
  · simp [create_filtered_path]
  · simp [create_filtered_path, h]
  · cases params with
    | nil => exact absurd rfl hne
    | cons p ps => simp [create_filtered_path, h]
  · simp [create_filtered_path, filter_element, hbar, hbaz]; decide
  · simp [create_filtered_path, filter_element, hbar]; decide
  · simp [create_filtered_path, filter_element, hbar]; decide
  · simp [create_filtered_path, filter_element, hbar]; decide
  · simp [create_filtered_path, filter_element, FILTERED, hpw]; decide
  · simp [create_filtered_path, filter_element, hbar]; decide

/-- C3 witness: the general nonempty-parameters equation instantiated
at a concrete mode, path and parameter list, and the path-unmodified
equation at the empty list. -/
theorem create_filtered_path_spec_witness :
    create_filtered_path "full" "/" [("b", .str "1")]
      = "/" ++ "?" ++ String.intercalate "&"
          ((List.insertionSort pairKeyLe
            ([("b", PyValue.str "1")].map fun kv =>
              (kv.1, filter_element kv.1 kv.2))).map encodePair) ∧
    create_filtered_path "full" "/fine/" [] = "/fine/" :=
  ⟨create_filtered_path_spec.2.2.1 "full" "/" [("b", .str "1")] (by decide)
      (List.cons_ne_nil _ _),
    create_filtered_path_spec.2.1 "full" "/fine/" (by decide)⟩

/-- C4 counterexample: with input order baz before bar, the serialized
query string lists bar first — the output is sorted by key, so the
claim that pairs appear in their input order is false at this input
(the input-order serialization would be "/?baz=2&bar=1", which differs
from the actual output). -/
theorem create_filtered_path_order_counterexample :
    create_filtered_path "full" "/" [("baz", .str "42"), ("bar", .str "7")]
      = "/?bar=7&baz=42" ∧
    ("/?bar=7&baz=42" : String) ≠ "/?baz=42&bar=7" := by
  constructor
  · simp [create_filtered_path, filter_element,
      (by decide : key_is_sensitive "bar" = false),
      (by decide : key_is_sensitive "baz" = false)]
    decide
  · decide

/-- C4 amended: for every nonempty ordered sequence of parameter pairs
(in a non-"path" reporting mode), the query string lists the pairs
sorted by key rather than in input order: the serialized pair list is a
key-sorted permutation of the filtered input pairs, so every pair —
duplicate keys included — is retained. -/
theorem create_filtered_path_key_sorted (mode path : String)
    (params : List (String × PyValue)) (hmode : mode ≠ "path")
    (hne : params ≠ []) :
    List.Perm
      (List.insertionSort pairKeyLe
        (params.map fun kv => (kv.1, filter_element kv.1 kv.2)))
      (params.map fun kv => (kv.1, filter_element kv.1 kv.2)) ∧
    List.Sorted pairKeyLe
      (List.insertionSort pairKeyLe
        (params.map fun kv => (kv.1, filter_element kv.1 kv.2))) ∧
    create_filtered_path mode path params
      = path ++ "?" ++ String.intercalate "&"
          ((List.insertionSort pairKeyLe
            (params.map fun kv => (kv.1, filter_element kv.1 kv.2))).map
              encodePair) := by
  refine ⟨List.perm_insertionSort _ _, ?_, ?_⟩
  · haveI : IsTotal (String × PyValue) pairKeyLe :=
      ⟨fun a b => charsLe_total a.1.toList b.1.toList⟩
    haveI : IsTrans (String × PyValue) pairKeyLe :=
      ⟨fun a b c h1 h2 => charsLe_trans a.1.toList b.1.toList c.1.toList h1 h2⟩
    exact List.sorted_insertionSort pairKeyLe _
  · cases params with
    | nil => exact absurd rfl hne
    | cons p ps => simp [create_filtered_path, hmode]

/-- C4 amended witness: the sortedness, retention and serialization
facts instantiated at a concrete out-of-order parameter list. -/
theorem create_filtered_path_key_sorted_witness :
    List.Perm
      (List.insertionSort pairKeyLe
        ([("baz", PyValue.str "2"), ("bar", PyValue.str "1")].map fun kv =>
          (kv.1, filter_element kv.1 kv.2)))
      ([("baz", PyValue.str "2"), ("bar", PyValue.str "1")].map fun kv =>
        (kv.1, filter_element kv.1 kv.2)) ∧
    List.Sorted pairKeyLe
      (List.insertionSort pairKeyLe
        ([("baz", PyValue.str "2"), ("bar", PyValue.str "1")].map fun kv =>
          (kv.1, filter_element kv.1 kv.2))) ∧
    create_filtered_path "full" "/" [("baz", .str "2"), ("bar", .str "1")]
      = "/" ++ "?" ++ String.intercalate "&"
          ((List.insertionSort pairKeyLe
            ([("baz", PyValue.str "2"), ("bar", PyValue.str "1")].map fun kv =>
              (kv.1, filter_element kv.1 kv.2))).map encodePair) :=
  create_filtered_path_key_sorted "full" "/"
    [("baz", .str "2"), ("bar", .str "1")] (by decide) (List.cons_ne_nil _ _)

/-- The exact shape of the N+1 accumulator after n observations: the
count is n, the one-shot flag records whether the threshold was reached,
and capture fired exactly at the observation numbered `threshold`. -/
theorem observeTrace_char (threshold : Nat) (h : 1 ≤ threshold) :
    ∀ n, observeTrace threshold n
      = (⟨n, decide (threshold ≤ n)⟩,
         (List.range n).map fun i => decide (i + 1 = threshold)) := by
  intro n
  induction n with
  | zero =>
    have h0 : ¬ threshold ≤ 0 := by omega
    simp [observeTrace, NPlusOneCallSetItem.init, h0]
  | succ n ih =>
    simp only [observeTrace, ih, observeCall, List.range_succ, List.map_append,
      List.map_cons, List.map_nil]
    by_cases hle : threshold ≤ n
    · have hle1 : threshold ≤ n + 1 := by omega
      have hne : ¬ (n + 1 = threshold) := by omega
      simp [hle, hle1, hne]
    · by_cases hle1 : threshold ≤ n + 1
      · have heq : n + 1 = threshold := by omega
        simp [hle, hle1, heq]
      · have hne : ¬ (n + 1 = threshold) := by omega
        simp [hle, hle1, hne]

/-- C7: for every request and every normalized query shape observed n
times within it, with a capture threshold of at least one: the backtrace
capture fires at most once (the capture decisions contain at most one
true), it fires exactly at the observation whose count first reaches the
threshold, the final count is n, and the one-shot backtrace_captured
flag ends set exactly when the threshold was reached — so once set it is
never captured again within the same request. -/
theorem n_plus_one_capture_once (threshold n : Nat) (h : 1 ≤ threshold) :
    ((observeTrace threshold n).2.count true ≤ 1) ∧
    (∀ i, i < n →
      ((observeTrace threshold n).2[i]? = Option.some true ↔ i + 1 = threshold)) ∧
    (observeTrace threshold n).1.call_count = n ∧
    ((observeTrace threshold n).1.backtrace_captured = true ↔ threshold ≤ n) := by
  have hchar := observeTrace_char threshold h
  have hcount : ∀ m : Nat,
      ((List.range m).map fun i => decide (i + 1 = threshold)).count true
        = if threshold ≤ m then 1 else 0 := by
    intro m
    induction m with
    | zero =>
      have h0 : ¬ threshold ≤ 0 := by omega
      simp [h0]
    | succ m ih =>
      rw [List.range_succ, List.map_append, List.count_append, ih]
      by_cases hle : threshold ≤ m
      · have hle1 : threshold ≤ m + 1 := by omega
        have hne : ¬ (m + 1 = threshold) := by omega
        simp [hle, hle1, hne]
      · by_cases hle1 : threshold ≤ m + 1
        · have heq : m + 1 = threshold := by omega
          simp [hle, hle1, heq]
        · have hne : ¬ (m + 1 = threshold) := by omega
          simp [hle, hle1, hne]
  refine ⟨?_, ?_, ?_, ?_⟩
  · rw [hchar n, hcount n]
    by_cases hle : threshold ≤ n <;> simp [hle]
  · intro i hi
    rw [hchar n]
    simp [List.getElem?_map, List.getElem?_range, hi]
  · rw [hchar n]
  · rw [hchar n]
    simp

/-- C7 witness: threshold 3, five observations — capture fires only at
the third observation, the final count is 5 and the flag is set. -/
theorem n_plus_one_capture_once_witness :
    ((observeTrace 3 5).2.count true ≤ 1) ∧
    ((observeTrace 3 5).2[2]? = Option.some true ↔ 2 + 1 = 3) ∧
    (observeTrace 3 5).1.call_count = 5 ∧
    ((observeTrace 3 5).1.backtrace_captured = true ↔ 3 ≤ 5) :=
  have h := n_plus_one_capture_once 3 5 (by decide)
  ⟨h.1, h.2.1 2 (by decide), h.2.2.1, h.2.2.2⟩

end ScoutAPM
